import Mathlib

/-!
Verification of the sports-media-organizer metadata-extraction pipeline.

The Python sources are shallowly embedded: each Python function that a
property refers to is translated into an executable Lean definition over
`List Char` / `String`, `Nat`, `Int` and `Rat` (Python ints and floats of
the confidence arithmetic), with fallible operations returning `Option` or
`Except`.  Regular-expression searches are embedded as explicit scanning
functions implementing the leftmost-match, alternation-priority and greedy
or lazy quantifier semantics of the concrete patterns appearing in the
source.  Filesystem effects are embedded as explicit state passing over a
map from path strings to file contents, with the POSIX behaviour of the
`os.link` / `os.rename` primitives the code calls.
-/

namespace SMO

set_option allowUnsafeReducibility true in
attribute [semireducible] Rat.mul Rat.add Rat.sub Rat.inv

/-! ## Basic character and string helpers (Python semantics, ASCII data) -/

/-- Numeric value of a decimal digit character. -/
def digitVal (c : Char) : Nat := c.toNat - 48

/-- Decimal digit character for a value below 10 (ASCII). -/
def digitChar (n : Nat) : Char := Char.ofNat (48 + n)

/-- Python `int(...)` on a string of decimal digits. -/
def natOfDigits (cs : List Char) : Nat :=
  cs.foldl (fun a c => a * 10 + digitVal c) 0

/-- Python whitespace class used by the `\s` regex class and `str.strip()`
(ASCII part). -/
def isPySpace (c : Char) : Bool :=
  c = ' ' ∨ c = '\t' ∨ c = '\n' ∨ c = '\x0d' ∨ c = '\x0c' ∨ c = '\x0b'

/-- The regex `\w` class (ASCII part): letters, digits and underscore. -/
def isWordChar (c : Char) : Bool := c.isAlphanum ∨ c = '_'

/-- `needle` occurs at the start of `hay`. -/
def startsWithList : List Char → List Char → Bool
  | [], _ => true
  | _ :: _, [] => false
  | a :: as, b :: bs => a = b ∧ startsWithList as bs

/-- `needle` occurs somewhere inside `hay` (plain substring search). -/
def containsSub (needle : List Char) : List Char → Bool
  | [] => startsWithList needle []
  | c :: cs => startsWithList needle (c :: cs) ∨ containsSub needle cs

/-- Lower-case every character (Python `str.lower()` on ASCII data). -/
def toLowerList (cs : List Char) : List Char := cs.map Char.toLower

/-- Case-insensitive prefix test. -/
def startsWithCI (needle hay : List Char) : Bool :=
  startsWithList (toLowerList needle) (toLowerList hay)

/-- Embedding of `re.search(re.escape(s), t, re.IGNORECASE) is not None`:
case-insensitive substring occurrence. -/
def searchCI (needle hay : String) : Bool :=
  containsSub (toLowerList needle.data) (toLowerList hay.data)

/-- Python `"{:02d}".format n` for a nonnegative value. -/
def twoPadNat (n : Nat) : String :=
  if n < 10 then "0" ++ toString n else toString n

/-- Strip Python whitespace from both ends (Python `str.strip()`). -/
def stripPy (cs : List Char) : List Char :=
  ((cs.dropWhile isPySpace).reverse.dropWhile isPySpace).reverse

/-! ## Resolution extractor (src/metadata_extractors/resolution_extractor.py)

`_classify_pixel_resolution` receives a string `"WIDTHxHEIGHT"` captured by
the regex `(\d{3,4}x\d{3,4})` and splits it on `x`. -/

/-- Python `str.split(sep)` for a single-character separator. -/
def splitOnChar (sep : Char) : List Char → List (List Char)
  | [] => [[]]
  | c :: cs =>
    if c = sep then [] :: splitOnChar sep cs
    else match splitOnChar sep cs with
      | [] => [[c]]
      | p :: ps => (c :: p) :: ps

/-- Core of `ResolutionExtractor._classify_pixel_resolution` after
`width, height = map(int, dimensions.split("x"))`: note the `or` between
the width and height comparisons in the source. -/
def classifyPixelsCore (width height : Nat) : String :=
  if 3840 ≤ width ∨ 2160 ≤ height then "4K"
  else if 1920 ≤ width ∨ 1080 ≤ height then "1080p"
  else if 1280 ≤ width ∨ 720 ≤ height then "720p"
  else "SD"

/-- `ResolutionExtractor._classify_pixel_resolution`: the tuple unpacking
`width, height = ...` fails unless the split yields exactly two parts, so
the embedding returns `none` in that case. -/
def classify_pixel_resolution (dimensions : String) : Option String :=
  match (splitOnChar 'x' dimensions.data).map natOfDigits with
  | [width, height] => some (classifyPixelsCore width height)
  | _ => none

/-! ## Overall confidence (src/metadata_extractor/metadata_extractor.py) -/

/-- A value stored in the metadata dictionary: extractor outputs are
strings (values) or integers (confidence scores). -/
inductive MetaVal where
  | s (v : String)
  | n (v : Nat)
deriving DecidableEq

/-- `metadata.get(key, 0)` for a confidence entry: absent keys (and keys
holding non-numeric data, which the confidence slots never do) read as 0. -/
def lookupConf (metadata : List (String × MetaVal)) (key : String) : Nat :=
  match metadata.lookup key with
  | some (MetaVal.n v) => v
  | _ => 0

/-- `MetadataExtractor._calculate_overall_confidence`: the running-total
loop over `confidence_weights.items()`, integer division by the summed
weights (guarded against a zero sum) and the `min(..., 100)` cap. -/
def calculate_overall_confidence (confidence_weights : List (String × Nat))
    (metadata : List (String × MetaVal)) : Nat :=
  let total_weight := (confidence_weights.map Prod.snd).sum
  if total_weight = 0 then 0
  else
    let total_score := confidence_weights.foldl
      (fun acc sw => acc + lookupConf metadata (sw.1 ++ "_confidence") * sw.2) 0
    min (total_score / total_weight) 100

/-- The spec's formula, written from its words: overall confidence is the
weighted mean of per-slot confidences, a slot absent from the metadata
contributing 0 to the numerator while its weight still counts in the
denominator, the result an integer capped at 100. -/
def specWeightedMeanConfidence (confidence_weights : List (String × Nat))
    (metadata : List (String × MetaVal)) : Nat :=
  let numerator := (confidence_weights.map (fun sw =>
    match metadata.lookup (sw.1 ++ "_confidence") with
    | some (MetaVal.n c) => c * sw.2
    | _ => 0)).sum
  let denominator := (confidence_weights.map Prod.snd).sum
  min (numerator / denominator) 100

theorem foldl_add_map_sum {α : Type} (f : α → Nat) (l : List α) (a : Nat) :
    l.foldl (fun acc x => acc + f x) a = a + (l.map f).sum := by
  induction l generalizing a with
  | nil => simp
  | cons x xs ih => simp [List.foldl_cons, ih, Nat.add_assoc]

/-! ## Slot model (src/media_slots.py) -/

/-- The fifteen slot names of the `MediaSlots` dataclass; `fill_slot`
raises on any other name, so valid names form this inductive type. -/
inductive SlotName where
  | league_name | event_name | air_year | air_month | air_day
  | season_name | episode_title | episode_part | codec | fps
  | resolution | release_format | release_type | release_group | file_ext
deriving DecidableEq

/-- `SlotInfo` dataclass: value, confidence (a Python float, embedded as a
rational) and filled flag, with the dataclass defaults. -/
structure SlotInfo where
  value : Option String := none
  confidence : ℚ := 0
  is_filled : Bool := false
deriving DecidableEq

/-- A `MediaSlots` record, read through `getattr` by slot name. -/
def MediaSlots := SlotName → SlotInfo

/-- The record `MediaSlots()` built from the dataclass defaults. -/
def emptyMediaSlots : MediaSlots := fun _ => {}

/-- The relevant part of the global configuration dictionary read by
`fill_slot`: `config.get("confidence_threshold", 0.5)` and
`config.get("confidence_weights", {}).get(slot_name, 1.0)`. -/
structure SlotConfig where
  confidence_threshold : Option ℚ := none
  confidence_weights : List (SlotName × ℚ) := []
deriving DecidableEq

/-- `config.get("confidence_threshold", 0.5)`. -/
def SlotConfig.thresholdD (c : SlotConfig) : ℚ :=
  c.confidence_threshold.getD (1/2)

/-- `config.get("confidence_weights", {}).get(slot_name, 1.0)`. -/
def SlotConfig.weightD (c : SlotConfig) (s : SlotName) : ℚ :=
  (c.confidence_weights.lookup s).getD 1

/-- `required_confidence = confidence_threshold * weight` in `fill_slot`. -/
def requiredConfidence (c : SlotConfig) (s : SlotName) : ℚ :=
  c.thresholdD * c.weightD s

/-- `MediaSlots.fill_slot`: accept the candidate when its confidence
reaches the required confidence, otherwise reset the slot to the empty
state (value `None`, confidence 0.0, filled `False`). -/
def fill_slot (ms : MediaSlots) (slot_name : SlotName) (value : String)
    (confidence : ℚ) (config : SlotConfig) : MediaSlots :=
  fun n =>
    if n = slot_name then
      if requiredConfidence config slot_name ≤ confidence then
        { value := some value, confidence := confidence, is_filled := true }
      else
        { value := none, confidence := 0, is_filled := false }
    else ms n

/-- One recorded call to `fill_slot`. -/
structure FillOp where
  slot_name : SlotName
  value : String
  confidence : ℚ
  config : SlotConfig

/-- A sequence of `fill_slot` calls applied in order. -/
def applyFills (ms : MediaSlots) (ops : List FillOp) : MediaSlots :=
  ops.foldl (fun m op => fill_slot m op.slot_name op.value op.confidence op.config) ms

/-- Last element of a list, if any. -/
def lastOf? {α : Type} : List α → Option α
  | [] => none
  | [a] => some a
  | _ :: b :: t => lastOf? (b :: t)

theorem lastOf?_cons_of_ne_nil {α : Type} (a : α) (l : List α) (h : l ≠ []) :
    lastOf? (a :: l) = lastOf? l := by
  cases l with
  | nil => exact absurd rfl h
  | cons b t => rfl

theorem lastOf?_cons_some {α : Type} (a : α) (l : List α) :
    ∃ x, lastOf? (a :: l) = some x := by
  induction l generalizing a with
  | nil => exact ⟨a, rfl⟩
  | cons b t ih =>
    rw [lastOf?_cons_of_ne_nil a (b :: t) (by simp)]
    exact ih b

/-- The slot a `fill_slot` sequence leaves behind is decided entirely by
the last call that targeted it. -/
theorem applyFills_lookup (ops : List FillOp) (ms : MediaSlots) (n : SlotName) :
    applyFills ms ops n =
      match lastOf? (ops.filter (fun op => op.slot_name == n)) with
      | none => ms n
      | some op =>
        if requiredConfidence op.config n ≤ op.confidence then
          { value := some op.value, confidence := op.confidence, is_filled := true }
        else
          { value := none, confidence := 0, is_filled := false } := by
  induction ops generalizing ms with
  | nil => rfl
  | cons op ops ih =>
    show applyFills (fill_slot ms op.slot_name op.value op.confidence op.config) ops n = _
    rw [ih]
    by_cases hmem : op.slot_name = n
    · subst hmem
      have hf : (op :: ops).filter (fun o => o.slot_name == op.slot_name)
          = op :: ops.filter (fun o => o.slot_name == op.slot_name) := by
        simp [List.filter_cons]
      rw [hf]
      rcases hlast : ops.filter (fun o => o.slot_name == op.slot_name) with _ | ⟨o, t⟩
      · rw [hlast]
        simp [lastOf?, fill_slot]
      · rw [hlast, lastOf?_cons_of_ne_nil op (o :: t) (by simp)]
        obtain ⟨x, hx⟩ := lastOf?_cons_some o t
        rw [hx]
    · have hf : (op :: ops).filter (fun o => o.slot_name == n)
          = ops.filter (fun o => o.slot_name == n) := by
        simp [List.filter_cons, hmem]
      rw [hf]
      rcases hlast : ops.filter (fun o => o.slot_name == n) with _ | ⟨o, t⟩
      · rw [hlast]
        simp [lastOf?, fill_slot, Ne.symm hmem]
      · rw [hlast]
        obtain ⟨x, hx⟩ := lastOf?_cons_some o t
        rw [hx]

theorem lookupConf_mul (md : List (String × MetaVal)) (key : String) (w : Nat) :
    lookupConf md key * w =
      match md.lookup key with
      | some (MetaVal.n c) => c * w
      | _ => 0 := by
  unfold lookupConf
  rcases md.lookup key with _ | v
  · simp
  · rcases v with s | c <;> simp

/-! ## Claim theorems for the slot model, confidence and resolution -/

/-- C4 counterexample: the pixel pair (3840, 100) — parseable from a real
filename via the `(\d{3,4}x\d{3,4})` capture — satisfies none of the
claim's conjunctive thresholds (not ≥3840×2160, not ≥1920×1080, not
≥1280×720), so the claim as stated demands "SD", yet the code classifies
the string "3840x100" as "4K". -/
theorem C4_counterexample :
    classify_pixel_resolution "3840x100" = some "4K" ∧
    ¬(3840 ≤ 3840 ∧ 2160 ≤ 100) ∧
    ¬(1920 ≤ 3840 ∧ 1080 ≤ 100) ∧
    ¬(1280 ≤ 3840 ∧ 720 ≤ 100) ∧
    "4K" ≠ "SD" := by
  refine ⟨by decide, by decide, by decide, by decide, by decide⟩

/-- C4 (amended): the classifier returns "4K" exactly when width ≥ 3840 OR
height ≥ 2160; else "1080p" when width ≥ 1920 or height ≥ 1080; else
"720p" when width ≥ 1280 or height ≥ 720; else "SD" (the source combines
the two comparisons of each bucket with `or`, not `and`). -/
theorem C4_amended (width height : Nat) :
    (classifyPixelsCore width height = "4K" ↔ (3840 ≤ width ∨ 2160 ≤ height)) ∧
    (classifyPixelsCore width height = "1080p" ↔
      (¬(3840 ≤ width ∨ 2160 ≤ height) ∧ (1920 ≤ width ∨ 1080 ≤ height))) ∧
    (classifyPixelsCore width height = "720p" ↔
      (¬(3840 ≤ width ∨ 2160 ≤ height) ∧ ¬(1920 ≤ width ∨ 1080 ≤ height) ∧
        (1280 ≤ width ∨ 720 ≤ height))) ∧
    (classifyPixelsCore width height = "SD" ↔
      (¬(3840 ≤ width ∨ 2160 ≤ height) ∧ ¬(1920 ≤ width ∨ 1080 ≤ height) ∧
        ¬(1280 ≤ width ∨ 720 ≤ height))) := by
  unfold classifyPixelsCore
  split_ifs with h1 h2 h3 <;>
    refine ⟨?_, ?_, ?_, ?_⟩ <;> simp_all

/-- C2: with weights not all summing to zero, the orchestrator's overall
confidence equals the weighted mean of per-slot confidences in which a
slot absent from the metadata contributes 0 to the numerator while its
weight still counts in the denominator, and the result is an integer
capped at 100. -/
theorem C2_weighted_mean (confidence_weights : List (String × Nat))
    (metadata : List (String × MetaVal))
    (h : (confidence_weights.map Prod.snd).sum ≠ 0) :
    calculate_overall_confidence confidence_weights metadata
      = specWeightedMeanConfidence confidence_weights metadata ∧
    calculate_overall_confidence confidence_weights metadata ≤ 100 := by
  constructor
  · simp only [calculate_overall_confidence, specWeightedMeanConfidence, if_neg h,
      foldl_add_map_sum, Nat.zero_add, lookupConf_mul]
  · simp only [calculate_overall_confidence, if_neg h]
    exact Nat.min_le_right _ _

/-- C2 witness: a concrete weight map and metadata where the equality is
evaluated: weights league 2 / year 1 / codec 1, league at 90 and codec at
100, year missing, giving (180 + 0 + 100) / 4 = 70. -/
theorem C2_witness :
    ((([("league_name", 2), ("air_year", 1), ("codec", 1)] : List (String × Nat)).map
        Prod.snd).sum ≠ 0) ∧
    (calculate_overall_confidence [("league_name", 2), ("air_year", 1), ("codec", 1)]
        [("league_name_confidence", MetaVal.n 90), ("codec_confidence", MetaVal.n 100)]
      = specWeightedMeanConfidence [("league_name", 2), ("air_year", 1), ("codec", 1)]
        [("league_name_confidence", MetaVal.n 90), ("codec_confidence", MetaVal.n 100)] ∧
     calculate_overall_confidence [("league_name", 2), ("air_year", 1), ("codec", 1)]
        [("league_name_confidence", MetaVal.n 90), ("codec_confidence", MetaVal.n 100)] ≤ 100) :=
  ⟨by decide, C2_weighted_mean _ _ (by decide)⟩

/-- C9: after any sequence of `fill_slot` calls on a fresh `MediaSlots`
record, a filled slot holds a present value, and its value and confidence
are exactly those of the last accepted candidate for that slot (the
candidate that filled it), not the maximum confidence ever offered. -/
theorem C9_fill_invariant (ops : List FillOp) (n : SlotName)
    (hfill : (applyFills emptyMediaSlots ops n).is_filled = true) :
    ((applyFills emptyMediaSlots ops n).value.isSome = true) ∧
    ∀ op, lastOf? (ops.filter (fun o => o.slot_name == n)) = some op →
      (applyFills emptyMediaSlots ops n).value = some op.value ∧
      (applyFills emptyMediaSlots ops n).confidence = op.confidence ∧
      requiredConfidence op.config n ≤ op.confidence := by
  have key := applyFills_lookup ops emptyMediaSlots n
  rcases hlast : lastOf? (ops.filter (fun o => o.slot_name == n)) with _ | op0
  · rw [hlast] at key
    rw [key] at hfill
    simp [emptyMediaSlots] at hfill
  · rw [hlast] at key
    have key2 : applyFills emptyMediaSlots ops n =
        if requiredConfidence op0.config n ≤ op0.confidence then
          { value := some op0.value, confidence := op0.confidence, is_filled := true }
        else { value := none, confidence := 0, is_filled := false } := key
    by_cases hacc : requiredConfidence op0.config n ≤ op0.confidence
    · rw [if_pos hacc] at key2
      rw [key2]
      refine ⟨rfl, ?_⟩
      intro op hop
      rw [hlast] at hop
      cases hop
      exact ⟨rfl, rfl, hacc⟩
    · rw [if_neg hacc] at key2
      rw [key2] at hfill
      simp at hfill

/-- C9 witness: a slot offered confidence 90 and then an accepted lower
candidate at 60 ends filled with confidence 60 — the accepted candidate's
score, not the maximum ever seen. -/
theorem C9_witness :
    ((applyFills emptyMediaSlots
        [⟨SlotName.league_name, "NHL", 90, {}⟩, ⟨SlotName.league_name, "AEW", 60, {}⟩]
        SlotName.league_name).is_filled = true) ∧
    (((applyFills emptyMediaSlots
        [⟨SlotName.league_name, "NHL", 90, {}⟩, ⟨SlotName.league_name, "AEW", 60, {}⟩]
        SlotName.league_name).value.isSome = true) ∧
     ∀ op, lastOf? (([⟨SlotName.league_name, "NHL", 90, {}⟩,
          ⟨SlotName.league_name, "AEW", 60, {}⟩] : List FillOp).filter
            (fun o => o.slot_name == SlotName.league_name)) = some op →
       (applyFills emptyMediaSlots
          [⟨SlotName.league_name, "NHL", 90, {}⟩, ⟨SlotName.league_name, "AEW", 60, {}⟩]
          SlotName.league_name).value = some op.value ∧
       (applyFills emptyMediaSlots
          [⟨SlotName.league_name, "NHL", 90, {}⟩, ⟨SlotName.league_name, "AEW", 60, {}⟩]
          SlotName.league_name).confidence = op.confidence ∧
       requiredConfidence op.config SlotName.league_name ≤ op.confidence) :=
  ⟨by decide, C9_fill_invariant _ SlotName.league_name (by decide)⟩

/-- C10: a candidate whose confidence is strictly below
`confidence_threshold * weight` makes `fill_slot` reset the slot to value
`None`, confidence 0.0, filled `False` — whatever the slot held before. -/
theorem C10_low_confidence_resets (ms : MediaSlots) (n : SlotName) (value : String)
    (confidence : ℚ) (config : SlotConfig)
    (h : confidence < requiredConfidence config n) :
    fill_slot ms n value confidence config n
      = { value := none, confidence := 0, is_filled := false } := by
  unfold fill_slot
  rw [if_pos rfl, if_neg (not_le.mpr h)]

/-- C10 witness: a slot previously accepted at confidence 95 is erased by
a later candidate at 1/4 (below the default threshold 1/2 × weight 1). -/
theorem C10_witness :
    ((1/4 : ℚ) < requiredConfidence {} SlotName.codec) ∧
    fill_slot (fill_slot emptyMediaSlots SlotName.codec "x264" 95 {})
        SlotName.codec "h265" (1/4) {} SlotName.codec
      = { value := none, confidence := 0, is_filled := false } :=
  ⟨by decide,
   C10_low_confidence_resets (fill_slot emptyMediaSlots SlotName.codec "x264" 95 {})
     SlotName.codec "h265" (1/4) {} (by decide)⟩

/-! ## Date extractor (src/metadata_extractor/date_extractor.py)

The two date paths of `DateExtractor`: `date_extract_date_from_string`
(part-number regex, then `datetime.strptime` over an ordered format list)
and `date_handle_incomplete_date` (the `(\d{2})\.(\d{2})\.(\d{2})([A-Za-z]?)`
regex with the explicit greater-than-50 year prefix rule). -/

/-- Exactly `k` decimal digits from the front of the input. -/
def takeDigitsExact : Nat → List Char → Option (List Char × List Char)
  | 0, cs => some ([], cs)
  | _ + 1, [] => none
  | k + 1, c :: cs =>
    if c.isDigit then (takeDigitsExact k cs).map (fun p => (c :: p.1, p.2)) else none

/-- The separator class `[\.\-_]` of the part-number regex. -/
def isSepChar (c : Char) : Bool := c = '.' ∨ c = '-' ∨ c = '_'

/-- One backtracking alternative of `(\d{2,4}[\.\-_]\d{2}[\.\-_]\d{2})`
with a first group of exactly `k` digits; returns the matched text and the
rest of the input. -/
def matchPartDigits (k : Nat) (cs : List Char) : Option (List Char × List Char) := do
  let (d1, r1) ← takeDigitsExact k cs
  match r1 with
  | s1 :: r2 =>
    if isSepChar s1 then do
      let (d2, r3) ← takeDigitsExact 2 r2
      match r3 with
      | s2 :: r4 =>
        if isSepChar s2 then do
          let (d3, r5) ← takeDigitsExact 2 r4
          some (d1 ++ s1 :: d2 ++ s2 :: d3, r5)
        else none
      | [] => none
    else none
  | [] => none

/-- Match of `(\d{2,4}[\.\-_]\d{2}[\.\-_]\d{2})([A-Za-z]?)` anchored at
the start of the input: the greedy `\d{2,4}` tries 4, 3, then 2 digits
(regex backtracking), and the optional trailing letter is captured when
present. -/
def matchPartAt (cs : List Char) : Option (List Char × Option Char) :=
  match matchPartDigits 4 cs <|> matchPartDigits 3 cs <|> matchPartDigits 2 cs with
  | none => none
  | some (g1, rest) =>
    match rest with
    | c :: _ => if c.isAlpha then some (g1, some c) else some (g1, none)
    | [] => some (g1, none)

/-- `re.search` semantics for the part-number pattern: leftmost match
wins. -/
def searchPartRegex : List Char → Option (List Char × Option Char)
  | [] => none
  | c :: cs =>
    match matchPartAt (c :: cs) with
    | some r => some r
    | none => searchPartRegex cs

/-- One directive of a `strptime` format string. -/
inductive FmtItem where
  | year4 | year2 | mon | day | lit (c : Char)

/-- Partially collected `strptime` fields. -/
structure AccDate where
  y : Option Nat := none
  m : Option Nat := none
  d : Option Nat := none

/-- `%Y` matches exactly four digits (CPython `TimeRE`). -/
def year4Cands (cs : List Char) : List (Nat × List Char) :=
  match takeDigitsExact 4 cs with
  | some (ds, r) => [(natOfDigits ds, r)]
  | none => []

/-- `%y` matches exactly two digits; CPython maps 0–68 to 2000–2068 and
69–99 to 1969–1999. -/
def year2Cands (cs : List Char) : List (Nat × List Char) :=
  match takeDigitsExact 2 cs with
  | some (ds, r) =>
    let n := natOfDigits ds
    [(if n ≤ 68 then 2000 + n else 1900 + n, r)]
  | none => []

/-- `%m` matches `1[0-2]|0[1-9]|[1-9]`, alternatives in regex priority
order for backtracking. -/
def monCands (cs : List Char) : List (Nat × List Char) :=
  (match cs with
   | c1 :: c2 :: r =>
     if c1 = '1' ∧ c2.isDigit ∧ c2 ≤ '2' then [(10 + digitVal c2, r)] else []
   | _ => []) ++
  (match cs with
   | c1 :: c2 :: r =>
     if c1 = '0' ∧ c2.isDigit ∧ c2 ≠ '0' then [(digitVal c2, r)] else []
   | _ => []) ++
  (match cs with
   | c1 :: r => if c1.isDigit ∧ c1 ≠ '0' then [(digitVal c1, r)] else []
   | _ => [])

/-- `%d` matches `3[01]|[12]\d|0[1-9]|[1-9]`, alternatives in regex
priority order. -/
def dayCands (cs : List Char) : List (Nat × List Char) :=
  (match cs with
   | c1 :: c2 :: r =>
     if c1 = '3' ∧ (c2 = '0' ∨ c2 = '1') then [(30 + digitVal c2, r)] else []
   | _ => []) ++
  (match cs with
   | c1 :: c2 :: r =>
     if (c1 = '1' ∨ c1 = '2') ∧ c2.isDigit then [(10 * digitVal c1 + digitVal c2, r)] else []
   | _ => []) ++
  (match cs with
   | c1 :: c2 :: r =>
     if c1 = '0' ∧ c2.isDigit ∧ c2 ≠ '0' then [(digitVal c2, r)] else []
   | _ => []) ++
  (match cs with
   | c1 :: r => if c1.isDigit ∧ c1 ≠ '0' then [(digitVal c1, r)] else []
   | _ => [])

/-- Record one matched directive value. -/
def accSet (it : FmtItem) (acc : AccDate) (n : Nat) : AccDate :=
  match it with
  | FmtItem.year4 => { acc with y := some n }
  | FmtItem.year2 => { acc with y := some n }
  | FmtItem.mon => { acc with m := some n }
  | FmtItem.day => { acc with d := some n }
  | FmtItem.lit _ => acc

/-- Candidate matches of one directive at the front of the input, in
regex backtracking priority order. -/
def itemCands (it : FmtItem) (cs : List Char) : List (Nat × List Char) :=
  match it with
  | FmtItem.year4 => year4Cands cs
  | FmtItem.year2 => year2Cands cs
  | FmtItem.mon => monCands cs
  | FmtItem.day => dayCands cs
  | FmtItem.lit _ => []

/-- Backtracking match of a whole format against a prefix of the input:
the first (priority-ordered) full-pattern match wins, exactly as the
single compiled regex `re.match` of CPython `strptime` behaves; trailing
unconsumed input is returned, not rejected here. -/
def matchItems : List FmtItem → List Char → AccDate → Option (AccDate × List Char)
  | [], cs, acc => some (acc, cs)
  | FmtItem.lit c :: items, cs, acc =>
    (match cs with
     | x :: r => if x = c then matchItems items r acc else none
     | [] => none)
  | it :: items, cs, acc =>
    (itemCands it cs).foldr
      (fun cand alt =>
        match matchItems items cand.2 (accSet it acc cand.1) with
        | some res => some res
        | none => alt)
      none

/-- Leap year as `datetime` validates it. -/
def isLeapYear (y : Nat) : Bool := y % 4 = 0 ∧ (y % 100 ≠ 0 ∨ y % 400 = 0)

/-- Days in a month as `datetime` validates them. -/
def daysInMonth (y m : Nat) : Nat :=
  if m = 2 then (if isLeapYear y then 29 else 28)
  else if m = 4 ∨ m = 6 ∨ m = 9 ∨ m = 11 then 30
  else 31

/-- The `datetime(...)` constructor validity check performed after the
`strptime` regex match (`MINYEAR = 1`, `MAXYEAR = 9999`). -/
def dtValid (y m d : Nat) : Bool :=
  1 ≤ y ∧ y ≤ 9999 ∧ 1 ≤ m ∧ m ≤ 12 ∧ 1 ≤ d ∧ d ≤ daysInMonth y m

/-- `datetime.strptime(data, fmt)` for the formats used here: the regex
must match from the start, no unconverted data may remain, missing fields
default to 1900-01-01, and the date must be constructible. -/
def strptimeFmt (fmt : List FmtItem) (cs : List Char) : Option (Nat × Nat × Nat) :=
  match matchItems fmt cs {} with
  | some (acc, []) =>
    let y := acc.y.getD 1900
    let m := acc.m.getD 1
    let d := acc.d.getD 1
    if dtValid y m d then some (y, m, d) else none
  | _ => none

/-- The ordered `date_formats` list of `date_extract_date_from_string`. -/
def dateFormats : List (List FmtItem) :=
  [[FmtItem.year4, FmtItem.lit '.', FmtItem.mon, FmtItem.lit '.', FmtItem.day],
   [FmtItem.year4, FmtItem.lit '-', FmtItem.mon, FmtItem.lit '-', FmtItem.day],
   [FmtItem.day, FmtItem.lit '.', FmtItem.mon, FmtItem.lit '.', FmtItem.year4],
   [FmtItem.day, FmtItem.lit '-', FmtItem.mon, FmtItem.lit '-', FmtItem.year4],
   [FmtItem.year4, FmtItem.lit '_', FmtItem.mon, FmtItem.lit '_', FmtItem.day],
   [FmtItem.day, FmtItem.mon, FmtItem.year4],
   [FmtItem.year2, FmtItem.lit '.', FmtItem.mon, FmtItem.lit '.', FmtItem.day],
   [FmtItem.day, FmtItem.lit '.', FmtItem.mon, FmtItem.lit '.', FmtItem.year2],
   [FmtItem.day, FmtItem.lit '-', FmtItem.mon, FmtItem.lit '-', FmtItem.year2]]

/-- `for fmt in date_formats: try ... except ValueError: continue`. -/
def tryFormats : List (List FmtItem) → List Char → Option (Nat × Nat × Nat)
  | [], _ => none
  | f :: fs, cs =>
    match strptimeFmt f cs with
    | some r => some r
    | none => tryFormats fs cs

/-- The dictionary of date components and confidences that both date
paths build. -/
structure DateInfo where
  year : String
  year_confidence : Nat
  month : String
  month_confidence : Nat
  day : String
  day_confidence : Nat
  part_number : String
  part_number_confidence : Nat
deriving DecidableEq

/-- The all-empty `date_info` dictionary both helpers start from. -/
def emptyDateInfo : DateInfo :=
  { year := "", year_confidence := 0, month := "", month_confidence := 0,
    day := "", day_confidence := 0, part_number := "", part_number_confidence := 0 }

/-- `DateExtractor.date_extract_date_from_string`: part-number regex
first (narrowing `date_str` to its first capture group and recording the
uppercased letter at confidence 80), then the `strptime` format list; a
parsed 2-character year string gets prefix 20 when below 50, else 19. -/
def date_extract_date_from_string (date_str : String) : DateInfo :=
  if date_str = "" then emptyDateInfo
  else
    let searched := searchPartRegex date_str.data
    let dateCs := match searched with
      | some (g1, _) => g1
      | none => date_str.data
    let base := match searched with
      | some (_, letter) =>
        { emptyDateInfo with
          part_number := (match letter with
            | some c => String.mk [c.toUpper]
            | none => "")
          part_number_confidence := 80 }
      | none => emptyDateInfo
    match tryFormats dateFormats dateCs with
    | some (y, m, d) =>
      let airYear0 := toString y
      let airYear :=
        if airYear0.length = 2 then
          (if natOfDigits airYear0.data < 50 then "20" ++ airYear0 else "19" ++ airYear0)
        else airYear0
      { base with
        year := airYear, year_confidence := 90,
        month := (if m ≠ 0 then twoPadNat m else ""), month_confidence := 90,
        day := (if d ≠ 0 then twoPadNat d else ""), day_confidence := 90 }
    | none => base

/-- Match of `(\d{2})\.(\d{2})\.(\d{2})([A-Za-z]?)` anchored at the start
of the input. -/
def matchIncompleteAt : List Char → Option (List Char × List Char × List Char × Option Char)
  | a :: b :: c :: d0 :: e :: f :: g :: h :: rest =>
    if a.isDigit ∧ b.isDigit ∧ c = '.' ∧ d0.isDigit ∧ e.isDigit ∧ f = '.' ∧
        g.isDigit ∧ h.isDigit then
      some ([a, b], [d0, e], [g, h],
        match rest with
        | x :: _ => if x.isAlpha then some x else none
        | [] => none)
    else none
  | _ => none

/-- Leftmost `re.search` of the incomplete-date pattern. -/
def searchIncomplete : List Char → Option (List Char × List Char × List Char × Option Char)
  | [] => none
  | c :: cs =>
    match matchIncompleteAt (c :: cs) with
    | some r => some r
    | none => searchIncomplete cs

/-- `DateExtractor.date_handle_incomplete_date`: the incomplete-date
regex with the year prefix rule `"19" if int(YY) > 50 else "20"` and all
confidences at 70. -/
def date_handle_incomplete_date (filename : String) : DateInfo :=
  match searchIncomplete filename.data with
  | some (yy, mm, dd, letter) =>
    let yearPre := if 50 < natOfDigits yy then "19" else "20"
    { year := yearPre ++ String.mk yy, year_confidence := 70,
      month := String.mk mm, month_confidence := 70,
      day := String.mk dd, day_confidence := 70,
      part_number := (match letter with
        | some c => String.mk [c.toUpper]
        | none => ""),
      part_number_confidence := 70 }
  | none => emptyDateInfo

/-- Two-digit zero-padded decimal rendering of a value below 100. -/
def twoDigitsCs (n : Nat) : List Char := [digitChar (n / 10), digitChar (n % 10)]

/-- C1 counterexample: for the 2-digit year 60 (which is greater than 50,
so the claim demands prefix 19, i.e. the year 1960), the full-date parse
path parses "60.04.22" through the strptime format `%y.%m.%d`, whose
CPython pivot maps 60 to 2060 — not 1960. -/
theorem C1_counterexample :
    (date_extract_date_from_string "60.04.22").year = "2060" ∧
    50 < 60 ∧
    ("2060" : String) ≠ "1960" := by decide

/-- C1 (amended): for every 2-digit year YY (shown on the date YY.04.22),
the incomplete-date path maps YY to prefix 19 when YY > 50 and to prefix
20 when YY ≤ 50 (so 50 becomes 2050), at confidence 70; but the full-date
parse path follows the CPython strptime pivot instead — YY ≤ 68 becomes
20YY and YY ≥ 69 becomes 19YY — at confidence 90; and the in-code 2-digit
adjustment branch (reachable only through zero-padded 4-digit years such
as "0050.04.22") maps a year rendered with 2 digits to 19YY when YY ≥ 50,
giving 1950 at the boundary. -/
theorem C1_amended (yy : Nat) (h : yy < 100) :
    (date_handle_incomplete_date (String.mk (twoDigitsCs yy ++ ".04.22".data))).year
      = (if 50 < yy then "19" else "20") ++ String.mk (twoDigitsCs yy) ∧
    (date_handle_incomplete_date (String.mk (twoDigitsCs yy ++ ".04.22".data))).year_confidence
      = 70 ∧
    (date_extract_date_from_string (String.mk (twoDigitsCs yy ++ ".04.22".data))).year
      = toString (if yy ≤ 68 then 2000 + yy else 1900 + yy) ∧
    (date_extract_date_from_string (String.mk (twoDigitsCs yy ++ ".04.22".data))).year_confidence
      = 90 ∧
    (date_extract_date_from_string "0050.04.22").year = "1950" := by
  revert yy
  decide

/-- C1 witness at the boundary year 50: the incomplete-date path yields
2050 (prefix 20 since 50 is not greater than 50) and the full-date path
also yields 2050 (50 ≤ 68 under the strptime pivot). -/
theorem C1_witness :
    (50 < 100) ∧
    ((date_handle_incomplete_date (String.mk (twoDigitsCs 50 ++ ".04.22".data))).year
      = (if 50 < 50 then "19" else "20") ++ String.mk (twoDigitsCs 50) ∧
    (date_handle_incomplete_date (String.mk (twoDigitsCs 50 ++ ".04.22".data))).year_confidence
      = 70 ∧
    (date_extract_date_from_string (String.mk (twoDigitsCs 50 ++ ".04.22".data))).year
      = toString (if 50 ≤ 68 then 2000 + 50 else 1900 + 50) ∧
    (date_extract_date_from_string (String.mk (twoDigitsCs 50 ++ ".04.22".data))).year_confidence
      = 90 ∧
    (date_extract_date_from_string "0050.04.22").year = "1950") :=
  ⟨by decide, C1_amended 50 (by decide)⟩

/-! ## Episode part number
(src/metadata_extractors/episode_title_extractor.py, step 3) -/

/-- Match of `(\d{4}-\d{2}-\d{2})([a-zA-Z])?` anchored at the start of
the input: a dash-separated date shape, returning the date text and the
rest. -/
def matchYmdAt : List Char → Option (List Char × List Char)
  | y1 :: y2 :: y3 :: y4 :: '-' :: m1 :: m2 :: '-' :: d1 :: d2 :: rest =>
    if y1.isDigit ∧ y2.isDigit ∧ y3.isDigit ∧ y4.isDigit ∧ m1.isDigit ∧ m2.isDigit ∧
        d1.isDigit ∧ d2.isDigit then
      some ([y1, y2, y3, y4, '-', m1, m2, '-', d1, d2], rest)
    else none
  | _ => none

/-- Leftmost `re.search` of the date-plus-part-letter pattern: the date
text of the first date-shaped substring, with the letter directly behind
it when there is one. -/
def searchYmdPart : List Char → Option (List Char × Option Char)
  | [] => none
  | c :: cs =>
    match matchYmdAt (c :: cs) with
    | some (date, rest) =>
      some (date,
        match rest with
        | r :: _ => if r.isAlpha then some r else none
        | [] => none)
    | none => searchYmdPart cs

/-- Python `str.replace(old, new)`, fuel-driven so that the kernel can
evaluate it: with fuel at least the length of the input (maintained by
every recursive call), the fuel-exhausted branch is unreachable and the
function replaces every non-overlapping occurrence left to right. -/
def replaceAllFuel (old new : List Char) : Nat → List Char → List Char
  | _, [] => []
  | 0, s => s
  | fuel + 1, c :: cs =>
    if old ≠ [] ∧ startsWithList old (c :: cs) then
      new ++ replaceAllFuel old new fuel (List.drop (old.length - 1) cs)
    else c :: replaceAllFuel old new fuel cs

/-- Python `str.replace(old, new)`: every non-overlapping occurrence,
left to right. -/
def replaceAllList (old new s : List Char) : List Char :=
  replaceAllFuel old new s.length s

/-- `EpisodeTitleExtractor.episode_title_extract_part_number`: when the
first `\d{4}-\d{2}-\d{2}` substring carries a trailing letter, convert it
to `part-NN` via `ord(letter.lower()) - 96` and replace every occurrence
of date-plus-letter with the bare date in the returned filename. -/
def episode_title_extract_part_number (filename : String) : String × Option String :=
  match searchYmdPart filename.data with
  | some (date, some letter) =>
    (String.mk (replaceAllList (date ++ [letter]) date filename.data),
     some ("part-" ++ twoPadNat (letter.toLower.toNat - 96)))
  | some (_, none) => (filename, none)
  | none => (filename, none)

theorem searchYmdPart_of_first (post : List Char) (y1 y2 y3 y4 m1 m2 d1 d2 l : Char)
    (hd : ([y1, y2, y3, y4, m1, m2, d1, d2].all Char.isDigit) = true)
    (hl : l.isAlpha = true) :
    ∀ pre : List Char,
      (∀ n, n < pre.length →
        matchYmdAt (List.drop n
          (pre ++ ([y1, y2, y3, y4, '-', m1, m2, '-', d1, d2] ++ l :: post))) = none) →
      searchYmdPart (pre ++ ([y1, y2, y3, y4, '-', m1, m2, '-', d1, d2] ++ l :: post))
        = some ([y1, y2, y3, y4, '-', m1, m2, '-', d1, d2], some l) := by
  simp only [List.all_cons, List.all_nil, Bool.and_eq_true, Bool.and_true] at hd
  obtain ⟨h1, h2, h3, h4, h5, h6, h7, h8⟩ := hd
  intro pre
  induction pre with
  | nil =>
    intro _
    show searchYmdPart (y1 :: y2 :: y3 :: y4 :: '-' :: m1 :: m2 :: '-' :: d1 :: d2 :: l :: post) = _
    simp [searchYmdPart, matchYmdAt, h1, h2, h3, h4, h5, h6, h7, h8, hl]
  | cons c pre ih =>
    intro hfirst
    show searchYmdPart (c :: (pre ++ _)) = _
    have hc := hfirst 0 (by simp)
    simp only [List.drop_zero] at hc
    rw [searchYmdPart]
    rw [show (c :: (pre ++ ([y1, y2, y3, y4, '-', m1, m2, '-', d1, d2] ++ l :: post)))
        = ((c :: pre) ++ ([y1, y2, y3, y4, '-', m1, m2, '-', d1, d2] ++ l :: post)) from rfl,
      hc]
    exact ih (fun n hn => by
      have := hfirst (n + 1) (by simpa using hn)
      simpa using this)

/-- C6 counterexample: the filename "1999-01-01.2012-04-02a" contains the
date 2012-04-02 immediately followed by the part letter a, yet the
extraction returns no part at all and leaves the letter in place, because
the regex search stops at the first date-shaped substring (1999-01-01),
which carries no letter. -/
theorem C6_counterexample :
    episode_title_extract_part_number "1999-01-01.2012-04-02a"
      = ("1999-01-01.2012-04-02a", none) ∧
    containsSub ("2012-04-02a".data) ("1999-01-01.2012-04-02a".data) = true ∧
    (none : Option String) ≠ some "part-01" := by
  refine ⟨by decide, by decide, by decide⟩

/-- C6 (amended): for every filename in which the FIRST occurrence of a
`\d{4}-\d{2}-\d{2}` shaped substring is immediately followed by an ASCII
letter, the extraction yields the part id formed from
`ord(letter.lower()) - 96` zero-padded to two digits (part-01 for a,
part-02 for b, …), and every occurrence of date-plus-letter is replaced
by the bare date in the text subsequently used for title derivation. -/
theorem C6_amended (pre post : List Char) (y1 y2 y3 y4 m1 m2 d1 d2 l : Char)
    (hd : ([y1, y2, y3, y4, m1, m2, d1, d2].all Char.isDigit) = true)
    (hl : l.isAlpha = true)
    (hfirst : ∀ n, n < pre.length →
      matchYmdAt (List.drop n
        (pre ++ ([y1, y2, y3, y4, '-', m1, m2, '-', d1, d2] ++ l :: post))) = none) :
    episode_title_extract_part_number
        (String.mk (pre ++ ([y1, y2, y3, y4, '-', m1, m2, '-', d1, d2] ++ l :: post)))
      = (String.mk (replaceAllList
            ([y1, y2, y3, y4, '-', m1, m2, '-', d1, d2] ++ [l])
            [y1, y2, y3, y4, '-', m1, m2, '-', d1, d2]
            (pre ++ ([y1, y2, y3, y4, '-', m1, m2, '-', d1, d2] ++ l :: post))),
         some ("part-" ++ twoPadNat (l.toLower.toNat - 96))) := by
  unfold episode_title_extract_part_number
  rw [show (String.mk (pre ++ ([y1, y2, y3, y4, '-', m1, m2, '-', d1, d2] ++ l :: post))).data
      = pre ++ ([y1, y2, y3, y4, '-', m1, m2, '-', d1, d2] ++ l :: post) from rfl]
  rw [searchYmdPart_of_first post y1 y2 y3 y4 m1 m2 d1 d2 l hd hl pre hfirst]

/-- C6 witness: the filename "ep.2012-04-02b.mkv", whose first date shape
is 2012-04-02 followed by the letter b, yields part-02 and the letter is
removed from the returned text. -/
theorem C6_witness :
    (([('2' : Char), '0', '1', '2', '0', '4', '0', '2'].all Char.isDigit) = true ∧
     ('b' : Char).isAlpha = true ∧
     ∀ n, n < ("ep.".data : List Char).length →
       matchYmdAt (List.drop n
         ("ep.".data ++ ([('2' : Char), '0', '1', '2', '-', '0', '4', '-', '0', '2']
            ++ 'b' :: ".mkv".data))) = none) ∧
    episode_title_extract_part_number
        (String.mk ("ep.".data ++ ([('2' : Char), '0', '1', '2', '-', '0', '4', '-', '0', '2']
          ++ 'b' :: ".mkv".data)))
      = (String.mk (replaceAllList
            ([('2' : Char), '0', '1', '2', '-', '0', '4', '-', '0', '2'] ++ ['b'])
            [('2' : Char), '0', '1', '2', '-', '0', '4', '-', '0', '2']
            ("ep.".data ++ ([('2' : Char), '0', '1', '2', '-', '0', '4', '-', '0', '2']
              ++ 'b' :: ".mkv".data))),
         some ("part-" ++ twoPadNat (('b' : Char).toLower.toNat - 96))) :=
  ⟨⟨by decide, by decide, by decide⟩,
   C6_amended "ep.".data ".mkv".data '2' '0' '1' '2' '0' '4' '0' '2' 'b'
     (by decide) (by decide) (by decide)⟩

/-! ## Episode title extractor
(src/metadata_extractors/episode_title_extractor.py, full pipeline, with
the substitution/filter machinery of
src/metadata_extractor/base_extractor.py) -/

/-- One pre-run substitution rule; the YAML default for `is_directory` is
`True`. -/
structure SubRule where
  original : String := ""
  replace : String := ""
  is_directory : Bool := true
deriving DecidableEq

/-- One wildcard rule: trigger substrings and the attribute assignment
map. -/
structure WildcardRule where
  string_contains : List String := []
  set_attr : List (String × String) := []
deriving DecidableEq

/-- The sport-override bundle fields used by the episode-title path. -/
structure SportOverrides where
  wildcard_matches : List WildcardRule := []
  remove_known_elements : List String := []
  pre_run_filename_substitutions : List SubRule := []
  pre_run_filter_out : List String := []
deriving DecidableEq

/-- The global-config fields used by the episode-title path. -/
structure GlobalConfig where
  pre_run_filename_substitutions : List SubRule := []
  pre_run_filter_out : List String := []
deriving DecidableEq

/-- Fuel-driven body of `replaceAllCI`; with fuel at least the input
length the fuel-exhausted branch is unreachable. -/
def replaceAllCIFuel (old new : List Char) : Nat → List Char → List Char
  | _, [] => []
  | 0, s => s
  | fuel + 1, c :: cs =>
    if old ≠ [] ∧ startsWithCI old (c :: cs) then
      new ++ replaceAllCIFuel old new fuel (List.drop (old.length - 1) cs)
    else c :: replaceAllCIFuel old new fuel cs

/-- `re.compile(re.escape(original), re.IGNORECASE).sub(replace, text)`:
case-insensitive replacement of every non-overlapping occurrence, left to
right. -/
def replaceAllCI (old new s : List Char) : List Char :=
  replaceAllCIFuel old new s.length s

/-- `_compile_substitution_patterns` keeps only rules whose `original`
and `replace` are both truthy. -/
def compiledSubs (subs : List SubRule) : List SubRule :=
  subs.filter (fun r => r.original ≠ "" ∧ r.replace ≠ "")

/-- `BaseExtractor.apply_substitutions`: global rules first, then
sport-specific rules, each applied only when its `is_directory` flag
equals the call's flag. -/
def apply_substitutions (g : GlobalConfig) (so : SportOverrides) (is_directory : Bool)
    (filename : String) : String :=
  let afterGlobal := (compiledSubs g.pre_run_filename_substitutions).foldl
    (fun fn r =>
      if r.is_directory = is_directory then
        String.mk (replaceAllCI r.original.data r.replace.data fn.data)
      else fn)
    filename
  (compiledSubs so.pre_run_filename_substitutions).foldl
    (fun fn r =>
      if r.is_directory = is_directory then
        String.mk (replaceAllCI r.original.data r.replace.data fn.data)
      else fn)
    afterGlobal

/-- `BaseExtractor.apply_filters`: strip every truthy global filter
pattern, then every sport-specific one (the `is_directory` parameter is
unused by the source). -/
def apply_filters (g : GlobalConfig) (so : SportOverrides) (filename : String) : String :=
  let afterGlobal := (g.pre_run_filter_out.filter (fun p => p ≠ "")).foldl
    (fun fn p => String.mk (replaceAllCI p.data [] fn.data)) filename
  (so.pre_run_filter_out.filter (fun p => p ≠ "")).foldl
    (fun fn p => String.mk (replaceAllCI p.data [] fn.data)) afterGlobal

/-- Inner loop of `episode_title_extract_event_name_from_filename`: scan
the trigger strings of one rule; on a hit return the rule's
`episode_title` assignment when it is truthy, otherwise keep scanning. -/
def findInStrings : List String → List (String × String) → String → Option String
  | [], _, _ => none
  | s :: ss, attrs, filename =>
    if searchCI s filename then
      match attrs.lookup "episode_title" with
      | some t => if t ≠ "" then some t else findInStrings ss attrs filename
      | none => findInStrings ss attrs filename
    else findInStrings ss attrs filename

/-- Outer loop over the wildcard rules, first success wins. -/
def findWildcardTitle : List WildcardRule → String → Option String
  | [], _ => none
  | rule :: rest, filename =>
    match findInStrings rule.string_contains rule.set_attr filename with
    | some t => some t
    | none => findWildcardTitle rest filename

/-- `EpisodeTitleExtractor.episode_title_extract_event_name_from_filename`:
a matching wildcard rule with a truthy `episode_title` assignment yields
that title at confidence 100. -/
def episode_title_extract_event_name_from_filename (wildcard_matches : List WildcardRule)
    (filename : String) : Option String × Nat :=
  match findWildcardTitle wildcard_matches filename with
  | some t => (some t, 100)
  | none => (none, 0)

/-- Replace each maximal run of Python whitespace with a single space
(`re.sub(r"\s+", " ", text)`). -/
def collapsePySpaceRun : List Char → List Char
  | [] => []
  | [c] => if isPySpace c then [' '] else [c]
  | c1 :: c2 :: cs =>
    if isPySpace c1 ∧ isPySpace c2 then collapsePySpaceRun (c2 :: cs)
    else (if isPySpace c1 then ' ' else c1) :: collapsePySpaceRun (c2 :: cs)

/-- `EpisodeTitleExtractor.episode_title_remove_known_components`: strip
every known element (wildcard `league_name` / `event_name` /
`episode_title` assignments plus `remove_known_elements`), turn
separators into spaces, collapse whitespace and strip. -/
def episode_title_remove_known_components (so : SportOverrides) (filename : String) : String :=
  let knownFromWildcards := so.wildcard_matches.foldl
    (fun acc rule =>
      acc ++ (rule.set_attr.filter (fun kv =>
        (kv.1 = "league_name" ∨ kv.1 = "event_name" ∨ kv.1 = "episode_title") ∧
          kv.2 ≠ "")).map Prod.snd)
    []
  let known := knownFromWildcards ++ so.remove_known_elements
  let title := known.foldl
    (fun t e => if e ≠ "" then replaceAllCI e.data [] t else t) filename.data
  let title2 := title.map (fun c => if c = '.' ∨ c = '-' ∨ c = '_' then ' ' else c)
  String.mk (stripPy (collapsePySpaceRun title2))

/-- The character class `[A-Za-z0-9\s]` of the title patterns. -/
def isTitleChar (c : Char) : Bool := c.isAlphanum ∨ isPySpace c

/-- Pattern 1, `(?P<title>[A-Za-z0-9\s]+)`: leftmost maximal run of the
title class. -/
def regexP1 : List Char → Option (List Char)
  | [] => none
  | c :: cs =>
    if isTitleChar c then some (c :: cs.takeWhile isTitleChar) else regexP1 cs

/-- `Part\s*\d+` (or `Episode\s*\d+`) consuming the whole rest of the
input, as forced by the `$` anchor behind the optional group. -/
def matchKwNumEnd (kw : List Char) (cs : List Char) : Bool :=
  startsWithList kw cs ∧
    (let r := (cs.drop kw.length).dropWhile isPySpace
     r ≠ [] ∧ r.all Char.isDigit)

/-- `(?:Part\s*\d+|Episode\s*\d+)?$` behind the separator of pattern 2. -/
def p2After (cs : List Char) : Bool :=
  cs = [] ∨ matchKwNumEnd "Part".data cs ∨ matchKwNumEnd "Episode".data cs

/-- Lazy title of pattern 2 at a fixed start position: the shortest
nonempty title-class prefix followed by a space-or-dash separator whose
remainder matches the optional episode/part suffix and the end anchor. -/
def p2Lazy (acc : List Char) : List Char → Option (List Char)
  | [] => none
  | c :: cs =>
    if isTitleChar c then
      match cs with
      | d :: cs2 =>
        if (isPySpace d ∨ d = '-') ∧ p2After cs2 then some (acc ++ [c])
        else p2Lazy (acc ++ [c]) cs
      | [] => none
    else none

/-- Pattern 2,
`(?P<title>[A-Za-z0-9\s]+?)(?:\s|-)(?:Part\s*\d+|Episode\s*\d+)?$`:
leftmost start position wins. -/
def regexP2 : List Char → Option (List Char)
  | [] => none
  | c :: cs =>
    match p2Lazy [] (c :: cs) with
    | some t => some t
    | none => regexP2 cs

/-- The closing class `[\]\)]` at the head of the input. -/
def headCloseBracket : List Char → Bool
  | r :: _ => r = ']' ∨ r = ')'
  | [] => false

/-- Pattern 3, `[\[\(](?P<title>[A-Za-z0-9\s]+)[\]\)]`. -/
def regexP3 : List Char → Option (List Char)
  | [] => none
  | c :: cs =>
    if c = '[' ∨ c = '(' then
      (let run := cs.takeWhile isTitleChar
       let rest := cs.dropWhile isTitleChar
       if run ≠ [] ∧ headCloseBracket rest then some run
       else regexP3 cs)
    else regexP3 cs

/-- `\s*(?P<title>[A-Za-z0-9\s]+)$` behind a keyword of pattern 4: the
greedy whitespace run hands back a single space when nothing else is left
for the mandatory title group. -/
def p4After (cs : List Char) : Option (List Char) :=
  let rest := cs.dropWhile isPySpace
  if rest ≠ [] ∧ rest.all isTitleChar then some rest
  else if rest = [] ∧ cs ≠ [] then some [' ']
  else none

/-- Pattern 4,
`(?:Episode|Part|Segment)\s*(?P<title>[A-Za-z0-9\s]+)$` (the three
keywords start with distinct letters, so at most one can match at a given
position). -/
def regexP4 : List Char → Option (List Char)
  | [] => none
  | c :: cs =>
    if startsWithList "Episode".data (c :: cs) then
      match p4After ((c :: cs).drop 7) with
      | some t => some t
      | none => regexP4 cs
    else if startsWithList "Part".data (c :: cs) then
      match p4After ((c :: cs).drop 4) with
      | some t => some t
      | none => regexP4 cs
    else if startsWithList "Segment".data (c :: cs) then
      match p4After ((c :: cs).drop 7) with
      | some t => some t
      | none => regexP4 cs
    else regexP4 cs

/-- `(?:\.\w{3,4})$`: a dot followed by three or four word characters at
the end of the input. -/
def p5Ext (cs : List Char) : Bool :=
  match cs with
  | '.' :: r => (r.length = 3 ∨ r.length = 4) ∧ r.all isWordChar
  | _ => false

/-- Pattern 5, `(?P<title>[A-Za-z0-9\s]+)(?:\.\w{3,4})$`. -/
def regexP5 : List Char → Option (List Char)
  | [] => none
  | c :: cs =>
    if isTitleChar c then
      (let run := c :: cs.takeWhile isTitleChar
       let rest := cs.dropWhile isTitleChar
       if p5Ext rest then some run else regexP5 cs)
    else regexP5 cs

/-- Strip leading and trailing dashes (Python `str.strip("-")`). -/
def stripDashes (cs : List Char) : List Char :=
  ((cs.dropWhile (fun c => c = '-')).reverse.dropWhile (fun c => c = '-')).reverse

/-- Replace each maximal run of whitespace-or-underscore with one dash
(`re.sub(r"[\s_]+", "-", text)`). -/
def collapseSpaceUnderscore : List Char → List Char
  | [] => []
  | [c] => if isPySpace c ∨ c = '_' then ['-'] else [c]
  | c1 :: c2 :: cs =>
    if (isPySpace c1 ∨ c1 = '_') ∧ (isPySpace c2 ∨ c2 = '_') then
      collapseSpaceUnderscore (c2 :: cs)
    else (if isPySpace c1 ∨ c1 = '_' then '-' else c1) :: collapseSpaceUnderscore (c2 :: cs)

/-- Collapse each dash run of length at least two to one dash
(`re.sub(r"-{2,}", "-", text)`). -/
def collapseDashes : List Char → List Char
  | [] => []
  | [c] => [c]
  | c1 :: c2 :: cs =>
    if c1 = '-' ∧ c2 = '-' then collapseDashes (c2 :: cs)
    else c1 :: collapseDashes (c2 :: cs)

/-- `EpisodeTitleExtractor.episode_title_clean`. -/
def episode_title_clean (title : List Char) : String :=
  let t1 := title.filter (fun c => isWordChar c ∨ isPySpace c ∨ c = '-')
  let t2 := collapseSpaceUnderscore t1
  String.mk (stripDashes (collapseDashes t2))

/-- The pattern loop of `episode_title_extract_via_regex`: the first
pattern whose stripped title is nonempty and not "unknown" wins at
confidence 85. -/
def runTitlePatterns : List (List Char → Option (List Char)) → List Char → Option String × Nat
  | [], _ => (none, 0)
  | p :: ps, cs =>
    match p cs with
    | some t0 =>
      let t := stripPy t0
      if t ≠ [] ∧ toLowerList t ≠ "unknown".data then (some (episode_title_clean t), 85)
      else runTitlePatterns ps cs
    | none => runTitlePatterns ps cs

/-- `EpisodeTitleExtractor.episode_title_extract_via_regex` over the five
internal patterns. -/
def episode_title_extract_via_regex (title_candidate : String) : Option String × Nat :=
  runTitlePatterns [regexP1, regexP2, regexP3, regexP4, regexP5] title_candidate.data

/-- `EpisodeTitleExtractor.extract`: substitutions, filters, part-letter
removal, wildcard title (confidence 100), regex-derived title (85) or the
unknown fallback (0). -/
def EpisodeTitleExtractor.extract (g : GlobalConfig) (so : SportOverrides)
    (filename : String) : String × Nat :=
  let cleaned1 := apply_substitutions g so false filename
  let cleaned2 := apply_filters g so cleaned1
  let cleaned3 := (episode_title_extract_part_number cleaned2).1
  match episode_title_extract_event_name_from_filename so.wildcard_matches cleaned3 with
  | (some t, conf) => (t, conf)
  | (none, _) =>
    let cand := episode_title_remove_known_components so cleaned3
    match episode_title_extract_via_regex cand with
    | (some t, conf) => (t, conf)
    | (none, _) => ("Unknown Episode", 0)

theorem findInStrings_of_mem (attrs : List (String × String)) (T : String)
    (hT : attrs.lookup "episode_title" = some T) (hT0 : T ≠ "") (fn : String) :
    ∀ (trigs : List String) (s : String), s ∈ trigs → searchCI s fn = true →
      findInStrings trigs attrs fn = some T := by
  intro trigs
  induction trigs with
  | nil => intro s hs _; exact absurd hs (List.not_mem_nil s)
  | cons t ts ih =>
    intro s hs hsearch
    by_cases ht : searchCI t fn = true
    · simp only [findInStrings, ht, if_true, hT]
      rw [if_pos hT0]
    · rcases List.mem_cons.mp hs with rfl | hs'
      · exact absurd hsearch ht
      · simp only [findInStrings, ht, if_false, Bool.false_eq_true]
        exact ih s hs' hsearch

/-- C7 counterexample: with the sport profile holding exactly the
Hell-in-a-Cell wildcard rule, the filename "2012-04-02Hell in a Cell.mp4"
contains the trigger substring, yet extraction returns the regex-derived
title "2012-04-02ell-in-a-Cell-mp4" at confidence 85: the part-letter
step consumed the H of Hell (date followed by a letter), so the wildcard
search missed and the regex fallback WAS reached. -/
theorem C7_counterexample :
    EpisodeTitleExtractor.extract {}
        ⟨[⟨["Hell in a Cell"], [("episode_title", "Hell in a Cell Episode")]⟩], [], [], []⟩
        "2012-04-02Hell in a Cell.mp4"
      = ("2012-04-02ell-in-a-Cell-mp4", 85) ∧
    searchCI "Hell in a Cell" "2012-04-02Hell in a Cell.mp4" = true ∧
    (("2012-04-02ell-in-a-Cell-mp4", 85) : String × Nat) ≠ ("Hell in a Cell Episode", 100) := by
  refine ⟨by decide, by decide, by decide⟩

/-- C7 (amended): when the first wildcard rule of the profile assigns a
nonempty episode title and one of its trigger substrings still occurs
(case-insensitively) in the filename as it stands after substitutions,
filters and date-part-letter removal, the extraction returns exactly that
assigned title at confidence 100 and the regex title derivation is not
reached. -/
theorem C7_amended (g : GlobalConfig) (so : SportOverrides) (filename T s : String)
    (trigs : List String) (attrs : List (String × String)) (rest : List WildcardRule)
    (hwm : so.wildcard_matches = ⟨trigs, attrs⟩ :: rest)
    (hT : attrs.lookup "episode_title" = some T) (hT0 : T ≠ "") (hs : s ∈ trigs)
    (hmatch : searchCI s ((episode_title_extract_part_number
        (apply_filters g so (apply_substitutions g so false filename))).1) = true) :
    EpisodeTitleExtractor.extract g so filename = (T, 100) := by
  have hfind := findInStrings_of_mem attrs T hT hT0 _ trigs s hs hmatch
  simp only [EpisodeTitleExtractor.extract, episode_title_extract_event_name_from_filename,
    hwm, findWildcardTitle, hfind]

/-- C7 witness: the filename "WWE.Hell In A Cell.2019.mp4" (no date
shape, empty substitution and filter lists) yields exactly the assigned
title at confidence 100. -/
theorem C7_witness :
    (("Hell in a Cell" : String) ∈ (["Hell in a Cell"] : List String) ∧
     ([("episode_title", "Hell in a Cell Episode")] : List (String × String)).lookup
        "episode_title" = some "Hell in a Cell Episode" ∧
     ("Hell in a Cell Episode" : String) ≠ "" ∧
     searchCI "Hell in a Cell" ((episode_title_extract_part_number
        (apply_filters {}
          ⟨[⟨["Hell in a Cell"], [("episode_title", "Hell in a Cell Episode")]⟩], [], [], []⟩
          (apply_substitutions {}
            ⟨[⟨["Hell in a Cell"], [("episode_title", "Hell in a Cell Episode")]⟩], [], [], []⟩
            false "WWE.Hell In A Cell.2019.mp4"))).1) = true) ∧
    EpisodeTitleExtractor.extract {}
        ⟨[⟨["Hell in a Cell"], [("episode_title", "Hell in a Cell Episode")]⟩], [], [], []⟩
        "WWE.Hell In A Cell.2019.mp4"
      = ("Hell in a Cell Episode", 100) :=
  ⟨⟨by decide, by decide, by decide, by decide⟩,
   C7_amended {}
     ⟨[⟨["Hell in a Cell"], [("episode_title", "Hell in a Cell Episode")]⟩], [], [], []⟩
     "WWE.Hell In A Cell.2019.mp4" "Hell in a Cell Episode" "Hell in a Cell"
     ["Hell in a Cell"] [("episode_title", "Hell in a Cell Episode")] []
     rfl (by decide) (by decide) (by decide) (by decide)⟩

/-! ## League extractor (src/metadata_extractor/league_extractor.py) -/

instance instDecEqExcept {ε α : Type} [DecidableEq ε] [DecidableEq α] :
    DecidableEq (Except ε α) := fun x y =>
  match x, y with
  | Except.ok a, Except.ok b =>
    if h : a = b then Decidable.isTrue (h ▸ rfl)
    else Decidable.isFalse (fun he => h (Except.ok.inj he))
  | Except.error a, Except.error b =>
    if h : a = b then Decidable.isTrue (h ▸ rfl)
    else Decidable.isFalse (fun he => h (Except.error.inj he))
  | Except.ok _, Except.error _ => Decidable.isFalse (fun he => Except.noConfusion he)
  | Except.error _, Except.ok _ => Decidable.isFalse (fun he => Except.noConfusion he)

/-- `LeagueExtractor.clean_text`:
`re.sub(r"[^\w\s]", "", text).strip().lower()`. -/
def clean_text (text : String) : String :=
  String.mk (toLowerList (stripPy (text.data.filter (fun c => isWordChar c ∨ isPySpace c))))

/-- The configuration slice the league extractor reads: the
`league` reference table and the `wildcard_matches` list. -/
structure LeagueConfig where
  league : List (String × List String) := []
  wildcard_matches : List WildcardRule := []
deriving DecidableEq

/-- Inner trigger-string loop of `match_league_from_wildcards`: a hit on
the cleaned filename or the path returns the rule's truthy `league_name`
assignment. -/
def leagueFindInStrings : List String → List (String × String) → String → String → Option String
  | [], _, _, _ => none
  | s :: ss, attrs, league_str, path =>
    if searchCI s league_str ∨ searchCI s path then
      match attrs.lookup "league_name" with
      | some ln => if ln ≠ "" then some ln else leagueFindInStrings ss attrs league_str path
      | none => leagueFindInStrings ss attrs league_str path
    else leagueFindInStrings ss attrs league_str path

/-- `LeagueExtractor.match_league_from_wildcards`: first matching rule
wins at confidence 95. -/
def match_league_from_wildcards : List WildcardRule → String → String → Option String × Nat
  | [], _, _ => (none, 0)
  | rule :: rest, league_str, path =>
    match leagueFindInStrings rule.string_contains rule.set_attr league_str path with
    | some ln => (some ln, 95)
    | none => match_league_from_wildcards rest league_str path

/-- `LeagueExtractor.match_league_from_overrides`: exact case-insensitive
match of the cleaned filename against a league's canonical name or any
alias, confidence 90. -/
def match_league_from_overrides : List (String × List String) → String → Option String × Nat
  | [], _ => (none, 0)
  | (league, aliases) :: rest, league_str =>
    if toLowerList league_str.data = toLowerList league.data ∨
        aliases.any (fun a => toLowerList league_str.data = toLowerList a.data) then
      (some league, 90)
    else match_league_from_overrides rest league_str

/-- One parent directory of `infer_league_from_directory`: any alias
occurring as a case-insensitive substring of the parent path string. -/
def findLeagueInParent : List (String × List String) → String → Option String
  | [], _ => none
  | (league, aliases) :: rest, parent =>
    if aliases.any (fun a => containsSub (toLowerList a.data) (toLowerList parent.data)) then
      some league
    else findLeagueInParent rest parent

/-- `LeagueExtractor.infer_league_from_directory`: scan the parents in
order, confidence 75 on the first hit. -/
def infer_league_from_directory : List (String × List String) → List String → Option String × Nat
  | _, [] => (none, 0)
  | league_data, p :: ps =>
    match findLeagueInParent league_data p with
    | some league => (some league, 75)
    | none => infer_league_from_directory league_data ps

/-- `LeagueExtractor.build_regex_from_league_data` iterates
`self.league_data.get("league", {}).items()`, but `self.league_data` is
already the league table itself: when no league is literally named
"league" the pattern table is empty, and when one is, the value is an
alias list on which `.items()` raises `AttributeError`. -/
def build_regex_from_league_data (league_data : List (String × List String)) :
    Except String (List (String × List String)) :=
  match league_data.lookup "league" with
  | none => Except.ok []
  | some _ => Except.error "AttributeError: list object has no attribute items"

/-- `\b` at a position, for an alias made of word characters: the
previous character (when any) is not a word character and neither is the
character following the matched alias. -/
def wbMatchAt (al : List Char) (prev : Option Char) (s : List Char) : Bool :=
  startsWithCI al s &&
  (match prev with
   | some c => !(isWordChar c)
   | none => true) &&
  (match s.drop al.length with
   | c :: _ => !(isWordChar c)
   | [] => true)

/-- Scan for a case-insensitive word-boundary occurrence of an alias. -/
def wbScan (al : List Char) : Option Char → List Char → Bool
  | _, [] => false
  | prev, c :: cs => wbMatchAt al prev (c :: cs) ∨ wbScan al (some c) cs

/-- `re.compile(rf"\b({'|'.join(aliases)})\b", re.IGNORECASE).search`:
some alias occurs with word boundaries, case-insensitively. -/
def wordBoundaryOccursCI (al s : List Char) : Bool := wbScan al none s

/-- The pattern loop of `match_league_using_regex` over whatever pattern
table `build_regex_from_league_data` produced, confidence 60. -/
def leagueRegexLoop : List (String × List String) → String → Option String × Nat
  | [], _ => (none, 0)
  | (league, aliases) :: rest, league_str =>
    if aliases.any (fun a => wordBoundaryOccursCI a.data league_str.data) then (some league, 60)
    else leagueRegexLoop rest league_str

/-- `LeagueExtractor.match_league_using_regex`. -/
def match_league_using_regex (league_data : List (String × List String))
    (league_str : String) : Except String (Option String × Nat) :=
  match build_regex_from_league_data league_data with
  | Except.error e => Except.error e
  | Except.ok patterns => Except.ok (leagueRegexLoop patterns league_str)

/-- Steps 5 and 6 of `_extract_league`: the regex attempt, else the
"Unknown" fallback at confidence 0. -/
def leagueRegexStep (league_data : List (String × List String)) (league_str : String) :
    Except String (String × Nat) :=
  match match_league_using_regex league_data league_str with
  | Except.error e => Except.error e
  | Except.ok (some ln, c) =>
    if ln ≠ "" then Except.ok (ln, c) else Except.ok ("Unknown", 0)
  | Except.ok (none, _) => Except.ok ("Unknown", 0)

/-- `LeagueExtractor._extract_league`: wildcards (95), overrides (90),
directory inference (75, skipped when it produced "Unknown"), regex (60),
fallback "Unknown" (0); an uncaught exception escapes as an error. -/
def _extract_league (cfg : LeagueConfig) (filename : String) (filePathStr : String)
    (parents : List String) : Except String (String × Nat) :=
  let league_str_cleaned := if filename = "" then "" else clean_text filename
  match match_league_from_wildcards cfg.wildcard_matches league_str_cleaned filePathStr with
  | (some ln, c) => Except.ok (ln, c)
  | (none, _) =>
    match match_league_from_overrides cfg.league league_str_cleaned with
    | (some ln, c) => Except.ok (ln, c)
    | (none, _) =>
      match infer_league_from_directory cfg.league parents with
      | (some ln, c) =>
        if ln ≠ "" ∧ ln ≠ "Unknown" then Except.ok (ln, c)
        else leagueRegexStep cfg.league league_str_cleaned
      | (none, _) => leagueRegexStep cfg.league league_str_cleaned

/-- C5: all earlier strategies miss for "game nhl tonight.mp4" with the
league table NHL → [nhl], the alias nhl occurs in the cleaned filename
with word boundaries (so the OR-ed alias regex of the spec should fire at
confidence 60), yet the extractor returns "Unknown" at 0: the pattern
table is built from `league_data.get("league", {})` — a lookup of the key
"league" inside the league table itself — and is therefore always empty
when no league is literally named "league". -/
theorem C5_regex_stage_dead :
    _extract_league ⟨[("NHL", ["nhl"])], []⟩ "game nhl tonight.mp4"
        "/media/files/game nhl tonight.mp4" ["/media/files", "/media", "/"]
      = Except.ok ("Unknown", 0) ∧
    wordBoundaryOccursCI "nhl".data (clean_text "game nhl tonight.mp4").data = true ∧
    match_league_using_regex [("NHL", ["nhl"])] (clean_text "game nhl tonight.mp4")
      = Except.ok (none, 0) ∧
    (([("NHL", ["nhl"])] : List (String × List String)).lookup "league") = none := by
  refine ⟨by decide, by decide, by decide, by decide⟩

/-! ## File relocation (sports-media-organizer.py `rename_and_hardlink`
and src/file_handler.py `FileHandler.handle_hardlink_or_move`)

The filesystem is a map from path strings to file contents; `os.link`
and `os.rename` carry their POSIX semantics: link fails with
`FileExistsError` when the destination exists, rename silently replaces
an existing destination file.  `shutil.move` within one filesystem and
with a non-directory destination is `os.rename`. -/

/-- A filesystem: path → content. -/
def FS := String → Option String

/-- POSIX `os.link src dest`: error when the source is missing or the
destination exists, else the destination names the same content. -/
def os_link (fs : FS) (src dest : String) : Except String FS :=
  match fs src with
  | none => Except.error "FileNotFoundError"
  | some content =>
    match fs dest with
    | some _ => Except.error "FileExistsError"
    | none => Except.ok (fun p => if p = dest then some content else fs p)

/-- POSIX `os.rename src dest`: error when the source is missing; an
existing destination file is silently replaced. -/
def os_rename (fs : FS) (src dest : String) : Except String FS :=
  match fs src with
  | none => Except.error "FileNotFoundError"
  | some content =>
    Except.ok (fun p => if p = dest then some content else if p = src then none else fs p)

/-- `shutil.move(src, dest)` for a same-filesystem move onto a
non-directory destination path: `os.rename`. -/
def shutil_move (fs : FS) (src dest : String) : Except String FS :=
  os_rename fs src dest

/-- The organizer state touched by `rename_and_hardlink`. -/
structure RelocState where
  fs : FS
  processed_files : Nat := 0
  failed_files : List String := []
  warnings : List String := []
  dry_run_actions : List (String × String) := []

/-- `rename_and_hardlink` of sports-media-organizer.py: dry-run records
the plan; live mode links or renames only when the destination does not
already exist, logging a warning and touching nothing otherwise; any
relocation error appends to the failed-files list. -/
def rename_and_hardlink (hardlinkOrMove : Option String) (dry_run : Bool) (st : RelocState)
    (src dest_folder new_filename : String) : RelocState :=
  let dest_path := dest_folder ++ "/" ++ new_filename
  if dry_run then
    { st with dry_run_actions := st.dry_run_actions ++ [(src, dest_path)],
              processed_files := st.processed_files + 1 }
  else
    match st.fs dest_path with
    | none =>
      match (if hardlinkOrMove.getD "hardlink" = "hardlink" then os_link st.fs src dest_path
             else os_rename st.fs src dest_path) with
      | Except.ok fs2 => { st with fs := fs2, processed_files := st.processed_files + 1 }
      | Except.error _ => { st with failed_files := st.failed_files ++ [src] }
    | some _ => { st with warnings := st.warnings ++ ["File already exists: " ++ dest_path] }

/-- `FileHandler.handle_hardlink_or_move`: hardlink or move according to
config (default "move", compared lower-cased), catching any error into a
`False` return; there is no pre-existing-destination check. -/
def handle_hardlink_or_move (hardlinkOrMove : Option String) (fs : FS) (src dest : String) :
    Bool × FS :=
  if String.mk (toLowerList (hardlinkOrMove.getD "move").data) = "hardlink" then
    match os_link fs src dest with
    | Except.ok fs2 => (true, fs2)
    | Except.error _ => (false, fs)
  else
    match shutil_move fs src dest with
    | Except.ok fs2 => (true, fs2)
    | Except.error _ => (false, fs)

/-- A two-file filesystem: an existing source and an existing, distinct
destination. -/
def c3fs : FS := fun p =>
  if p = "/src/a.mp4" then some "contentA"
  else if p = "/dst/x/y.mp4" then some "contentB"
  else none

/-- C3: on a pre-existing destination, `rename_and_hardlink` (main
script) skips with a warning, deletes nothing and records no failure —
but `FileHandler.handle_hardlink_or_move` in move mode silently
overwrites the existing destination and deletes the source, reporting
success; in hardlink mode it reports failure without overwriting. -/
theorem C3_overwrite_on_move :
    ((rename_and_hardlink none false ⟨c3fs, 0, [], [], []⟩
        "/src/a.mp4" "/dst/x" "y.mp4").fs "/dst/x/y.mp4" = some "contentB" ∧
     (rename_and_hardlink none false ⟨c3fs, 0, [], [], []⟩
        "/src/a.mp4" "/dst/x" "y.mp4").fs "/src/a.mp4" = some "contentA" ∧
     (rename_and_hardlink none false ⟨c3fs, 0, [], [], []⟩
        "/src/a.mp4" "/dst/x" "y.mp4").failed_files = [] ∧
     (rename_and_hardlink none false ⟨c3fs, 0, [], [], []⟩
        "/src/a.mp4" "/dst/x" "y.mp4").warnings
       = ["File already exists: /dst/x/y.mp4"]) ∧
    ((handle_hardlink_or_move (some "move") c3fs "/src/a.mp4" "/dst/x/y.mp4").1 = true ∧
     (handle_hardlink_or_move (some "move") c3fs "/src/a.mp4" "/dst/x/y.mp4").2 "/dst/x/y.mp4"
       = some "contentA" ∧
     (handle_hardlink_or_move (some "move") c3fs "/src/a.mp4" "/dst/x/y.mp4").2 "/src/a.mp4"
       = none ∧
     c3fs "/dst/x/y.mp4" = some "contentB" ∧ ("contentA" : String) ≠ "contentB") ∧
    ((handle_hardlink_or_move (some "hardlink") c3fs "/src/a.mp4" "/dst/x/y.mp4").1 = false ∧
     (handle_hardlink_or_move (some "hardlink") c3fs "/src/a.mp4" "/dst/x/y.mp4").2 "/dst/x/y.mp4"
       = some "contentB" ∧
     (handle_hardlink_or_move (some "hardlink") c3fs "/src/a.mp4" "/dst/x/y.mp4").2 "/src/a.mp4"
       = some "contentA") := by
  refine ⟨⟨by decide, by decide, by decide, by decide⟩,
    ⟨by decide, by decide, by decide, by decide, by decide⟩,
    ⟨by decide, by decide, by decide⟩⟩

/-! ## Orchestrator extractor loop
(src/metadata_extractor/metadata_extractor.py `extract_metadata` and
src/metadata_extractor_manager.py `extract_and_update`)

An extractor is embedded as its `extract` behaviour on the given inputs:
a result dictionary, or an exception (`Except.error`). -/

/-- One extractor as the orchestrator sees it. -/
structure PyExtractor where
  extract : String → String → Except String (List (String × MetaVal))

/-- Python `dict.update`: entries of `r` replace entries of `d` with the
same key. -/
def pyUpdate (d r : List (String × MetaVal)) : List (String × MetaVal) :=
  d.filter (fun kv => (r.lookup kv.1).isNone) ++ r

/-- One iteration of the `for extractor in self.extractors` loop:
`try: result = extractor.extract(...); if result: metadata.update(result)
except Exception: log`. -/
def loopStep (filename file_path : String) (metadata : List (String × MetaVal))
    (e : PyExtractor) : List (String × MetaVal) :=
  match e.extract filename file_path with
  | Except.ok result => if result.isEmpty then metadata else pyUpdate metadata result
  | Except.error _ => metadata

/-- The extractor loop of `MetadataExtractor.extract_metadata`. -/
def extract_metadata_loop (extractors : List PyExtractor) (filename file_path : String) :
    List (String × MetaVal) :=
  extractors.foldl (loopStep filename file_path) []

/-- `MetadataExtractor.extract_metadata`: run the loop, then store the
aggregated overall confidence under the key "confidence". -/
def extract_metadata (confidence_weights : List (String × Nat))
    (extractors : List PyExtractor) (filename file_path : String) :
    List (String × MetaVal) :=
  let metadata := extract_metadata_loop extractors filename file_path
  pyUpdate metadata
    [("confidence", MetaVal.n (calculate_overall_confidence confidence_weights metadata))]

/-- Whether an extractor's (successful) result dictionary defines `key`
on the given inputs. -/
def producesKey (e : PyExtractor) (filename file_path key : String) : Bool :=
  match e.extract filename file_path with
  | Except.ok r => (r.lookup key).isSome
  | Except.error _ => false

/-- A slot extractor as `extract_and_update` sees it. -/
structure SlotExtractor where
  slot_name : SlotName
  extract : String → Except String (Option String × ℚ)

/-- `MetadataExtractor.extract_and_update` (manager variant): skip a
filled slot; an extractor exception is caught and leaves the slots
untouched; a present value at or above the threshold is written through
`fill_slot` (removal of the matched alias from the file info only touches
the file info, not the slots). -/
def extract_and_update (confidence_threshold : ℚ) (config : SlotConfig) (e : SlotExtractor)
    (file_info : String) (ms : MediaSlots) : MediaSlots :=
  if (ms e.slot_name).is_filled then ms
  else
    match e.extract file_info with
    | Except.error _ => ms
    | Except.ok (value?, conf) =>
      match value? with
      | some v =>
        if confidence_threshold ≤ conf then fill_slot ms e.slot_name v conf config else ms
      | none => ms

theorem lookup_cons_eq (a1 : String) (a2 : MetaVal) (t : List (String × MetaVal))
    (k : String) (h : (k == a1) = true) :
    List.lookup k ((a1, a2) :: t) = some a2 := by
  simp [List.lookup, h]

theorem lookup_cons_ne (a1 : String) (a2 : MetaVal) (t : List (String × MetaVal))
    (k : String) (h : (k == a1) = false) :
    List.lookup k ((a1, a2) :: t) = List.lookup k t := by
  simp [List.lookup, h]

theorem lookup_pyUpdate (d r : List (String × MetaVal)) (k : String) :
    (pyUpdate d r).lookup k =
      match r.lookup k with
      | some v => some v
      | none => d.lookup k := by
  unfold pyUpdate
  induction d with
  | nil =>
    simp only [List.filter_nil, List.nil_append]
    cases hr : r.lookup k <;> simp [hr]
  | cons a d ih =>
    obtain ⟨a1, a2⟩ := a
    rw [List.filter_cons]
    by_cases hk : k = a1
    · have hbeq : (k == a1) = true := by simp [hk]
      by_cases ha : (List.lookup a1 r).isNone = true
      · have hrnone : r.lookup a1 = none := Option.isNone_iff_eq_none.mp ha
        rw [if_pos (by simpa using ha), List.cons_append,
          lookup_cons_eq a1 a2 _ k hbeq, hk, hrnone, lookup_cons_eq a1 a2 _ a1 (by simp)]
      · obtain ⟨v, hv⟩ : ∃ v, r.lookup a1 = some v := by
          cases hvv : r.lookup a1
          · rw [hvv] at ha
            simp at ha
          · exact ⟨_, rfl⟩
        rw [if_neg (by simpa using ha), ih, hk, hv]
    · have hbeq : (k == a1) = false := by simp [hk]
      by_cases ha : (List.lookup a1 r).isNone = true
      · rw [if_pos (by simpa using ha), List.cons_append, lookup_cons_ne a1 a2 _ k hbeq, ih]
        cases hr : r.lookup k
        · rw [lookup_cons_ne a1 a2 _ k hbeq]
        · rfl
      · rw [if_neg (by simpa using ha), ih]
        cases hr : r.lookup k
        · rw [lookup_cons_ne a1 a2 _ k hbeq]
        · rfl

theorem loopStep_lookup_none (filename file_path key : String)
    (init : List (String × MetaVal)) (e : PyExtractor)
    (hinit : init.lookup key = none) (hnp : producesKey e filename file_path key = false) :
    (loopStep filename file_path init e).lookup key = none := by
  unfold loopStep
  unfold producesKey at hnp
  cases he : e.extract filename file_path with
  | error msg =>
    simp only [he]
    exact hinit
  | ok r =>
    rw [he] at hnp
    simp only at hnp
    have hr : r.lookup key = none := by
      cases hvv : r.lookup key
      · rfl
      · rw [hvv] at hnp
        simp at hnp
    simp only [he]
    by_cases hre : r.isEmpty = true
    · rw [if_pos hre]
      exact hinit
    · rw [if_neg hre, lookup_pyUpdate, hr]
      exact hinit

theorem loop_lookup_none (filename file_path key : String) :
    ∀ (es : List PyExtractor) (init : List (String × MetaVal)),
      (es.all (fun e => !(producesKey e filename file_path key))) = true →
      init.lookup key = none →
      (es.foldl (loopStep filename file_path) init).lookup key = none := by
  intro es
  induction es with
  | nil =>
    intro init _ hinit
    exact hinit
  | cons e es ih =>
    intro init hall hinit
    simp only [List.all_cons, Bool.and_eq_true, Bool.not_eq_true'] at hall
    rw [List.foldl_cons]
    refine ih _ ?_ (loopStep_lookup_none filename file_path key init e hinit hall.1)
    simp only [List.all_eq_true]
    intro x hx
    have h2 := hall.2
    simp only [List.all_eq_true] at h2
    exact h2 x hx

/-- C8: an extractor that raises is equivalent to its absence — the loop
result, and hence the final metadata with its overall confidence, is the
same as if the failing extractor had not run (the remaining extractors
still contribute); a slot key no successful extractor defines reads back
at confidence 0; and in the manager variant a raising slot extractor
leaves the `MediaSlots` record exactly as it was. -/
theorem C8_extractor_error_nonfatal (pre post : List PyExtractor) (failing : PyExtractor)
    (filename file_path msg : String) (confidence_weights : List (String × Nat))
    (key : String)
    (hfail : failing.extract filename file_path = Except.error msg)
    (hkey : ((pre ++ failing :: post).all
      (fun e => !(producesKey e filename file_path key))) = true)
    (threshold : ℚ) (config : SlotConfig) (se : SlotExtractor) (file_info msg2 : String)
    (ms : MediaSlots)
    (hse : se.extract file_info = Except.error msg2) :
    extract_metadata_loop (pre ++ failing :: post) filename file_path
      = extract_metadata_loop (pre ++ post) filename file_path ∧
    extract_metadata confidence_weights (pre ++ failing :: post) filename file_path
      = extract_metadata confidence_weights (pre ++ post) filename file_path ∧
    lookupConf (extract_metadata_loop (pre ++ failing :: post) filename file_path)
      key = 0 ∧
    extract_and_update threshold config se file_info ms = ms := by
  have hloop : extract_metadata_loop (pre ++ failing :: post) filename file_path
      = extract_metadata_loop (pre ++ post) filename file_path := by
    unfold extract_metadata_loop
    rw [List.foldl_append, List.foldl_append, List.foldl_cons]
    have hstep : loopStep filename file_path
        (pre.foldl (loopStep filename file_path) []) failing
        = pre.foldl (loopStep filename file_path) [] := by
      unfold loopStep
      rw [hfail]
    rw [hstep]
  refine ⟨hloop, ?_, ?_, ?_⟩
  · unfold extract_metadata
    rw [hloop]
  · have hnone := loop_lookup_none filename file_path key (pre ++ failing :: post) [] hkey rfl
    unfold lookupConf
    rw [show extract_metadata_loop (pre ++ failing :: post) filename file_path
        = (pre ++ failing :: post).foldl (loopStep filename file_path) [] from rfl]
    rw [hnone]
  · unfold extract_and_update
    by_cases hf : (ms se.slot_name).is_filled
    · rw [if_pos hf]
    · rw [if_neg hf, hse]

/-- A successful codec extractor used by the C8 witness. -/
def c8good1 : PyExtractor :=
  ⟨fun _ _ => Except.ok [("codec", MetaVal.s "x264"), ("codec_confidence", MetaVal.n 100)]⟩

/-- A raising extractor used by the C8 witness. -/
def c8bad : PyExtractor := ⟨fun _ _ => Except.error "boom"⟩

/-- A successful resolution extractor used by the C8 witness. -/
def c8good2 : PyExtractor :=
  ⟨fun _ _ => Except.ok [("resolution", MetaVal.s "720p"),
    ("resolution_confidence", MetaVal.n 100)]⟩

/-- A raising slot extractor used by the C8 witness. -/
def c8slot : SlotExtractor := ⟨SlotName.fps, fun _ => Except.error "probe failed"⟩

/-- C8 witness: a codec extractor, then a raising extractor, then a
resolution extractor — the loop behaves as if the failing one were
absent, the key the failing extractor would have defined reads back at
confidence 0, and a raising slot extractor leaves a fresh `MediaSlots`
untouched. -/
theorem C8_witness :
    (c8bad.extract "f.mp4" "/d/f.mp4" = Except.error "boom" ∧
     (([c8good1] ++ c8bad :: [c8good2]).all
        (fun e => !(producesKey e "f.mp4" "/d/f.mp4" "fps_confidence"))) = true ∧
     c8slot.extract "f.mp4" = Except.error "probe failed") ∧
    (extract_metadata_loop ([c8good1] ++ c8bad :: [c8good2]) "f.mp4" "/d/f.mp4"
      = extract_metadata_loop ([c8good1] ++ [c8good2]) "f.mp4" "/d/f.mp4" ∧
     extract_metadata [("codec", 1), ("fps", 1)] ([c8good1] ++ c8bad :: [c8good2])
        "f.mp4" "/d/f.mp4"
      = extract_metadata [("codec", 1), ("fps", 1)] ([c8good1] ++ [c8good2])
        "f.mp4" "/d/f.mp4" ∧
     lookupConf (extract_metadata_loop ([c8good1] ++ c8bad :: [c8good2]) "f.mp4" "/d/f.mp4")
        "fps_confidence" = 0 ∧
     extract_and_update (1/2) {} c8slot "f.mp4" emptyMediaSlots = emptyMediaSlots) :=
  ⟨⟨rfl, by decide, rfl⟩,
   C8_extractor_error_nonfatal [c8good1] [c8good2] c8bad "f.mp4" "/d/f.mp4" "boom"
     [("codec", 1), ("fps", 1)] "fps_confidence" rfl (by decide) (1/2) {} c8slot
     "f.mp4" "probe failed" emptyMediaSlots rfl⟩

end SMO
